import Mathlib

/-!
Shallow embedding of src/lib/cmecab.cpp, the flat extern-C bridge of this
repository around the MeCab morphological-analysis engine (model, tagger,
lattice, node).  The engine itself (the implementations behind mecab.h) is
not among the repository sources, so its entities and methods are modelled
from the specification; each such definition carries a doc comment starting
with "Modelled from the spec:".  The bridge functions themselves are
translated from cmecab.cpp and, as in the source, merely delegate to the
engine entity they wrap.  Byte strings crossing the boundary are lists of
byte values.
-/

/-- A byte string as passed across the C boundary (pointer plus length). -/
abbrev Bytes := List Nat

/-- Modelled from the spec: one admissible analysis of a sentence, carrying
its formatted result string and its total path cost.  The engine's scoring
algorithm is a black box (spec section 1); only the ranked results are
observable through the bridge. -/
structure MeCab.Analysis where
  surface : Bytes
  cost : Int
deriving DecidableEq

/-- Modelled from the spec: the lattice state machine of spec section 4.3,
with states Empty, Ready, Parsed and Enumerating. -/
inductive MeCab.LatState where
  | empty
  | ready
  | parsed
  | enumerating
deriving DecidableEq

/-- Modelled from the spec: the Lattice entity (spec section 3): input
sentence bytes, the ranked node graph produced by analysis together with the
N-best enumeration cursor, the current result string, request-type bit
flags, boundary and feature constraints keyed by byte position, the
normalization factor Z and temperature theta (numeric tuning values, no
arithmetic is performed on them at this layer), and the per-lattice error
string. -/
structure MeCab.Lattice where
  sentence : Bytes
  state : MeCab.LatState
  analyses : List MeCab.Analysis
  cursor : Nat
  result : Bytes
  requestType : Nat
  boundaryConstraints : List (Nat × Int)
  featureConstraints : List (Nat × Nat × Bytes)
  z : Int
  theta : Int
  whatMsg : String
deriving DecidableEq

/-- Modelled from the spec: the Model entity: the loaded dictionary plus the
connection-cost table.  Dictionary lookup and lattice scoring are external
collaborators (spec section 1), exposed here as the finite set of admissible
analyses, with costs, of each byte sentence. -/
structure MeCab.Model where
  costTable : Nat → Nat → Int
  analysesOf : Bytes → List MeCab.Analysis

/-- Modelled from the spec: the Tagger entity: an executor bound at creation
to exactly one Model, carrying its last-error string (spec section 4.2). -/
structure MeCab.Tagger where
  model : MeCab.Model
  whatMsg : String

/-- Modelled from the spec: the process-wide error channel holding the
last-error string (spec section 2). -/
structure MeCab.GlobalState where
  lastError : String
deriving DecidableEq

/-- Modelled from the spec: the result of one candidate morpheme node as
observable through the bridge: its surface bytes and cost (spec section 3);
the forward link is not needed by the claims below. -/
structure MeCab.Node where
  surface : Bytes
  cost : Int
deriving DecidableEq

/-- Modelled from the spec: dictionary loading behind Model construction,
from an argv-style option vector or from a single option string; a failure
carries the failure-detail string destined for the error channel (spec
section 4.1). -/
structure MeCab.DictLoader where
  load : List String → Except String MeCab.Model
  loadSingle : String → Except String MeCab.Model

/-- Insert an analysis into a cost-sorted list, keeping it sorted. -/
def MeCab.insertByCost (a : MeCab.Analysis) :
    List MeCab.Analysis → List MeCab.Analysis
  | [] => [a]
  | b :: rest =>
    if a.cost ≤ b.cost then a :: b :: rest else b :: MeCab.insertByCost a rest

/-- Rank a list of analyses by non-decreasing cost (insertion sort), the
enumeration order required of the engine by spec section 4.3. -/
def MeCab.sortByCost : List MeCab.Analysis → List MeCab.Analysis
  | [] => []
  | a :: rest => MeCab.insertByCost a (MeCab.sortByCost rest)

/-- Whether a list of analyses is in non-decreasing cost order. -/
def MeCab.costSorted : List MeCab.Analysis → Bool
  | [] => true
  | [_] => true
  | a :: b :: rest => decide (a.cost ≤ b.cost) && MeCab.costSorted (b :: rest)

/-- Modelled from the spec: is_available reports whether the lattice has a
non-empty sentence set (spec sections 4.2 and 8). -/
def MeCab.Lattice.is_available (l : MeCab.Lattice) : Bool :=
  !l.sentence.isEmpty

/-- Modelled from the spec: set_sentence overwrites the sentence with the
first len bytes of the input buffer, clears the previous node graph and
result, and moves the state machine to Ready (spec section 4.3). -/
def MeCab.Lattice.set_sentence (l : MeCab.Lattice) (input : Bytes)
    (len : Nat) : MeCab.Lattice :=
  { l with
      sentence := input.take len
      state := .ready
      analyses := []
      cursor := 0
      result := [] }

/-- Modelled from the spec: sentence returns the input bytes held by the
lattice (spec section 6). -/
def MeCab.Lattice.sentenceBytes (l : MeCab.Lattice) : Bytes :=
  l.sentence

/-- Modelled from the spec: size returns the byte length of the held
sentence (spec sections 6 and 8). -/
def MeCab.Lattice.size (l : MeCab.Lattice) : Nat :=
  l.sentence.length

/-- Modelled from the spec: the N-best advance (spec section 4.3): from
Parsed or Enumerating, move the node graph to the next-best path in the
cost-ascending enumeration order and return true; return false, leaving the
lattice unchanged, when no further alternative exists — the terminal
condition, not a failure. -/
def MeCab.Lattice.next (l : MeCab.Lattice) : Bool × MeCab.Lattice :=
  match l.state with
  | .parsed | .enumerating =>
    if l.cursor + 1 < l.analyses.length then
      (true,
        { l with
            cursor := l.cursor + 1
            state := .enumerating
            result := (l.analyses.getD (l.cursor + 1) ⟨[], 0⟩).surface })
    else (false, l)
  | _ => (false, l)

/-- Modelled from the spec: clear moves any state to Empty: it releases the
node graph and resets the sentence, result, constraints and normalization
fields to defaults; the request-type flags are independent of the state
machine (spec section 4.3) and the handle itself stays alive. -/
def MeCab.Lattice.clear (l : MeCab.Lattice) : MeCab.Lattice :=
  { sentence := []
    state := .empty
    analyses := []
    cursor := 0
    result := []
    requestType := l.requestType
    boundaryConstraints := []
    featureConstraints := []
    z := 0
    theta := 0
    whatMsg := l.whatMsg }

/-- Format the first n ranked analyses as one newline-separated string. -/
def MeCab.nbestFormat (n : Nat) (xs : List MeCab.Analysis) : Bytes :=
  ((xs.take n).map (fun a => a.surface ++ [10])).flatten

/-- Modelled from the spec: enumNBestAsString independently produces a string
holding the first n ranked analyses without mutating the persistent
single-result enumeration cursor used by next (spec section 4.3). -/
def MeCab.Lattice.enumNBestAsString (l : MeCab.Lattice) (n : Nat) :
    Bytes × MeCab.Lattice :=
  (MeCab.nbestFormat n l.analyses, l)

/-- Modelled from the spec: the caller-supplied-buffer convention of spec
section 4.3: a write into a buffer of fixed capacity stores the content plus
a terminating NUL when it fits, treating the capacity as a hard upper bound,
and otherwise writes nothing and returns null to signal truncation. -/
def MeCab.writeBuffer (content : Bytes) (buf : Bytes) : Option Bytes × Bytes :=
  if content.length + 1 ≤ buf.length then
    let written := content ++ 0 :: buf.drop (content.length + 1)
    (some written, written)
  else
    (none, buf)

/-- Modelled from the spec: the caller-buffer variant of toString, writing
the current result string under the buffer convention (spec section 4.3). -/
def MeCab.Lattice.toStringBuf (l : MeCab.Lattice) (buf : Bytes) :
    Option Bytes × Bytes :=
  MeCab.writeBuffer l.result buf

/-- Modelled from the spec: the caller-buffer variant of enumNBestAsString,
writing the first n ranked analyses under the buffer convention. -/
def MeCab.Lattice.enumNBestAsStringBuf (l : MeCab.Lattice) (n : Nat)
    (buf : Bytes) : Option Bytes × Bytes :=
  MeCab.writeBuffer (MeCab.nbestFormat n l.analyses) buf

/-- Modelled from the spec: the caller-buffer variant of the per-node
toString, writing the node's formatted surface under the buffer
convention. -/
def MeCab.Lattice.nodeToStringBuf (_l : MeCab.Lattice) (nd : MeCab.Node)
    (buf : Bytes) : Option Bytes × Bytes :=
  MeCab.writeBuffer nd.surface buf

/-- Modelled from the spec: parse validates that the lattice has a non-empty
sentence set (is_available), runs the engine's lookup and scoring over the
sentence, populates the node graph with the admissible analyses ranked
cost-ascending and the result string of the best path (resetting the
normalization factor Z when the marginal-probability request flag, bit 8, is
set), and returns true; on failure (empty input or lookup failure) it
returns false and records an error string on the tagger, leaving the lattice
unchanged (spec sections 4.2 and 4.3). -/
def MeCab.Tagger.parse (t : MeCab.Tagger) (l : MeCab.Lattice) :
    Bool × MeCab.Tagger × MeCab.Lattice :=
  if l.is_available then
    match MeCab.sortByCost (t.model.analysesOf l.sentence) with
    | [] => (false, { t with whatMsg := "lookup failed" }, l)
    | best :: rest =>
      (true, t,
        { l with
            state := .parsed
            analyses := best :: rest
            cursor := 0
            result := best.surface
            z := if l.requestType &&& 8 ≠ 0 then 0 else l.z })
  else
    (false, { t with whatMsg := "empty sentence" }, l)

/-- Modelled from the spec: createModel from an argv-style option vector:
returns the loaded Model, or a null handle with the failure detail recorded
in the process-wide error channel when dictionary loading fails (spec
section 4.1). -/
def MeCab.createModel (ld : MeCab.DictLoader) (argv : List String)
    (g : MeCab.GlobalState) : Option MeCab.Model × MeCab.GlobalState :=
  match ld.load argv with
  | .ok m => (some m, g)
  | .error e => (none, { g with lastError := e })

/-- Modelled from the spec: createModel from a single option string, failing
the same way as the argv-style constructor (spec section 4.1). -/
def MeCab.createModelSingle (ld : MeCab.DictLoader) (arg : String)
    (g : MeCab.GlobalState) : Option MeCab.Model × MeCab.GlobalState :=
  match ld.loadSingle arg with
  | .ok m => (some m, g)
  | .error e => (none, { g with lastError := e })

/-- Modelled from the spec: getLastError reads the process-wide last-error
string without changing it (spec section 2). -/
def MeCab.getLastError (g : MeCab.GlobalState) :
    String × MeCab.GlobalState :=
  (g.lastError, g)

/-- Modelled from the spec: transition_cost queries the connection-cost
table: a pure function of the two attribute ids with no side effects (spec
section 4.1). -/
def MeCab.Model.transition_cost (m : MeCab.Model) (rattr lattr : Nat) :
    Int × MeCab.Model :=
  (m.costTable rattr lattr, m)

/-- Modelled from the spec: the engine version string, a process-wide
non-empty constant (spec sections 4.1 and 8); the concrete value stands in
for the engine's version constant. -/
def MeCab.versionString : String := "0.996"

/-- Modelled from the spec: the static Model version accessor, a constant
taking no Model instance (spec section 4.1). -/
def MeCab.Model.versionCall (g : MeCab.GlobalState) :
    String × MeCab.GlobalState :=
  (MeCab.versionString, g)

/-- Modelled from the spec: the static Tagger version accessor, a constant
taking no Tagger instance (spec section 4.2). -/
def MeCab.Tagger.versionCall (g : MeCab.GlobalState) :
    String × MeCab.GlobalState :=
  (MeCab.versionString, g)

/-- A heap of bridge entities of one kind, keyed by non-null handle; the
null handle is 0.  A delete of the null handle is a no-op, as the C++ delete
expression guarantees for a null pointer; a delete of a live handle destroys
that entity. -/
def deleteHandle {A : Type} (h : Nat) (heap : List (Nat × A)) :
    List (Nat × A) :=
  if h = 0 then heap else heap.filter (fun p => p.1 != h)

/-- Translated from cmecab.cpp: get_global_error delegates to the engine's
getLastError. -/
def get_global_error (g : MeCab.GlobalState) : String × MeCab.GlobalState :=
  MeCab.getLastError g

/-- Translated from cmecab.cpp: new_model_argv delegates to createModel on
the option vector and hands the resulting pointer (possibly null) back. -/
def new_model_argv (ld : MeCab.DictLoader) (argv : List String)
    (g : MeCab.GlobalState) : Option MeCab.Model × MeCab.GlobalState :=
  MeCab.createModel ld argv g

/-- Translated from cmecab.cpp: new_model_single delegates to createModel on
the single option string and hands the resulting pointer back. -/
def new_model_single (ld : MeCab.DictLoader) (arg : String)
    (g : MeCab.GlobalState) : Option MeCab.Model × MeCab.GlobalState :=
  MeCab.createModelSingle ld arg g

/-- Translated from cmecab.cpp: delete_model applies the C++ delete
expression to the model handle. -/
def delete_model (h : Nat) (heap : List (Nat × MeCab.Model)) :
    List (Nat × MeCab.Model) :=
  deleteHandle h heap

/-- Translated from cmecab.cpp: model_version returns the static Model
version string; it takes no model handle. -/
def model_version (g : MeCab.GlobalState) : String × MeCab.GlobalState :=
  MeCab.Model.versionCall g

/-- Translated from cmecab.cpp: transition_cost delegates to the model's
connection-cost query. -/
def transition_cost (m : MeCab.Model) (rattr lattr : Nat) :
    Int × MeCab.Model :=
  m.transition_cost rattr lattr

/-- Translated from cmecab.cpp: new_tagger asks the model for a tagger bound
to it. -/
def new_tagger (m : MeCab.Model) : MeCab.Tagger :=
  { model := m, whatMsg := "" }

/-- Translated from cmecab.cpp: delete_tagger applies the C++ delete
expression to the tagger handle. -/
def delete_tagger (h : Nat) (heap : List (Nat × MeCab.Tagger)) :
    List (Nat × MeCab.Tagger) :=
  deleteHandle h heap

/-- Translated from cmecab.cpp: tagger_version returns the static Tagger
version string; it takes no tagger handle. -/
def tagger_version (g : MeCab.GlobalState) : String × MeCab.GlobalState :=
  MeCab.Tagger.versionCall g

/-- Translated from cmecab.cpp: delete_lattice applies the C++ delete
expression to the lattice handle. -/
def delete_lattice (h : Nat) (heap : List (Nat × MeCab.Lattice)) :
    List (Nat × MeCab.Lattice) :=
  deleteHandle h heap

/-- Translated from cmecab.cpp: set_sentence delegates to the lattice with
the input pointer and length. -/
def set_sentence (l : MeCab.Lattice) (input : Bytes) (len : Nat) :
    MeCab.Lattice :=
  l.set_sentence input len

/-- Translated from cmecab.cpp: parse hands the lattice to the tagger. -/
def parse (t : MeCab.Tagger) (l : MeCab.Lattice) :
    Bool × MeCab.Tagger × MeCab.Lattice :=
  t.parse l

/-- Translated from cmecab.cpp: lattice_to_string_alloc delegates to the
caller-buffer variant of the lattice's toString. -/
def lattice_to_string_alloc (l : MeCab.Lattice) (buf : Bytes) :
    Option Bytes × Bytes :=
  l.toStringBuf buf

/-- Translated from cmecab.cpp: nbest_string delegates to the lattice's
enumNBestAsString. -/
def nbest_string (l : MeCab.Lattice) (n : Nat) : Bytes × MeCab.Lattice :=
  l.enumNBestAsString n

/-- Translated from cmecab.cpp: nbest_string_alloc delegates to the
caller-buffer variant of enumNBestAsString. -/
def nbest_string_alloc (l : MeCab.Lattice) (n : Nat) (buf : Bytes) :
    Option Bytes × Bytes :=
  l.enumNBestAsStringBuf n buf

/-- Translated from cmecab.cpp: node_string_alloc delegates to the
caller-buffer variant of the lattice's per-node toString. -/
def node_string_alloc (l : MeCab.Lattice) (nd : MeCab.Node) (buf : Bytes) :
    Option Bytes × Bytes :=
  l.nodeToStringBuf nd buf

/-- Translated from cmecab.cpp: next_lattice delegates to the lattice's
N-best advance. -/
def next_lattice (l : MeCab.Lattice) : Bool × MeCab.Lattice :=
  l.next

/-- Translated from cmecab.cpp: clear_lattice delegates to the lattice's
clear. -/
def clear_lattice (l : MeCab.Lattice) : MeCab.Lattice :=
  l.clear

/-- Translated from cmecab.cpp: is_available delegates to the lattice. -/
def is_available (l : MeCab.Lattice) : Bool :=
  l.is_available

/-- Translated from cmecab.cpp: lattice_sentence delegates to the lattice's
sentence accessor. -/
def lattice_sentence (l : MeCab.Lattice) : Bytes :=
  l.sentenceBytes

/-- Translated from cmecab.cpp: lattice_sentence_size delegates to the
lattice's size accessor. -/
def lattice_sentence_size (l : MeCab.Lattice) : Nat :=
  l.size

/-- The observable trace of j successive next_lattice calls: the list of
returned booleans together with the final lattice. -/
def nextTrace : Nat → MeCab.Lattice → List Bool × MeCab.Lattice
  | 0, l => ([], l)
  | j + 1, l =>
    let step := next_lattice l
    let rest := nextTrace j step.2
    (step.1 :: rest.1, rest.2)

theorem MeCab.length_insertByCost (a : MeCab.Analysis)
    (xs : List MeCab.Analysis) :
    (MeCab.insertByCost a xs).length = xs.length + 1 := by
  induction xs with
  | nil => rfl
  | cons b rest ih =>
    unfold MeCab.insertByCost
    split
    · simp
    · simp [ih]

theorem MeCab.length_sortByCost (xs : List MeCab.Analysis) :
    (MeCab.sortByCost xs).length = xs.length := by
  induction xs with
  | nil => rfl
  | cons a rest ih =>
    simp [MeCab.sortByCost, MeCab.length_insertByCost, ih]

theorem MeCab.costSorted_insertByCost (a : MeCab.Analysis)
    (xs : List MeCab.Analysis) (h : MeCab.costSorted xs = true) :
    MeCab.costSorted (MeCab.insertByCost a xs) = true := by
  induction xs with
  | nil => rfl
  | cons b rest ih =>
    by_cases hab : a.cost ≤ b.cost
    · simpa [MeCab.insertByCost, hab, MeCab.costSorted] using h
    · cases rest with
      | nil =>
        have hba : b.cost ≤ a.cost := le_of_not_le hab
        simp [MeCab.insertByCost, hab, MeCab.costSorted, hba]
      | cons c rest2 =>
        have hbc : b.cost ≤ c.cost := by
          have := h
          simp [MeCab.costSorted] at this
          exact this.1
        have hrest : MeCab.costSorted (c :: rest2) = true := by
          have := h
          simp [MeCab.costSorted] at this
          exact this.2
        have ihr := ih hrest
        by_cases hac : a.cost ≤ c.cost
        · have hba : b.cost ≤ a.cost := le_of_not_le hab
          have hr2 : MeCab.costSorted (c :: rest2) = true := hrest
          simp [MeCab.insertByCost, hab, hac, MeCab.costSorted, hba, hbc]
          simpa [MeCab.costSorted] using hr2
        · have := ihr
          simp [MeCab.insertByCost, hac] at this
          simp [MeCab.insertByCost, hab, hac, MeCab.costSorted, hbc]
          simpa [MeCab.costSorted] using this

theorem MeCab.costSorted_sortByCost (xs : List MeCab.Analysis) :
    MeCab.costSorted (MeCab.sortByCost xs) = true := by
  induction xs with
  | nil => rfl
  | cons a rest ih => exact MeCab.costSorted_insertByCost a _ ih

theorem MeCab.writeBuffer_length (c b : Bytes) :
    (MeCab.writeBuffer c b).2.length = b.length := by
  unfold MeCab.writeBuffer
  split
  case isTrue h => simp; omega
  case isFalse h => rfl

theorem MeCab.writeBuffer_none_iff (c b : Bytes) :
    (MeCab.writeBuffer c b).1 = none ↔ b.length < c.length + 1 := by
  unfold MeCab.writeBuffer
  split
  case isTrue h => simp; omega
  case isFalse h => simp; omega

theorem parse_success_shape (t : MeCab.Tagger) (l : MeCab.Lattice)
    (hp : (parse t l).1 = true) :
    (parse t l).2.2.analyses =
      MeCab.sortByCost (t.model.analysesOf l.sentence) ∧
    (parse t l).2.2.cursor = 0 ∧
    (parse t l).2.2.state = MeCab.LatState.parsed := by
  cases hav : l.is_available with
  | false =>
    exfalso
    simp [parse, MeCab.Tagger.parse, hav] at hp
  | true =>
    rcases hs : MeCab.sortByCost (t.model.analysesOf l.sentence) with _ | ⟨b, r⟩
    · exfalso
      simp [parse, MeCab.Tagger.parse, hav, hs] at hp
    · simp [parse, MeCab.Tagger.parse, hav, hs]

theorem next_lattice_step (l : MeCab.Lattice)
    (hst : l.state = MeCab.LatState.parsed ∨
      l.state = MeCab.LatState.enumerating)
    (hcur : l.cursor + 1 < l.analyses.length) :
    next_lattice l =
      (true,
        { l with
            cursor := l.cursor + 1
            state := MeCab.LatState.enumerating
            result := (l.analyses.getD (l.cursor + 1) ⟨[], 0⟩).surface }) := by
  rcases hst with h | h <;>
    simp [next_lattice, MeCab.Lattice.next, h, hcur]

theorem next_lattice_stop (l : MeCab.Lattice)
    (hcur : ¬ l.cursor + 1 < l.analyses.length) :
    next_lattice l = (false, l) := by
  cases h : l.state <;> simp [next_lattice, MeCab.Lattice.next, h, hcur]

theorem nextTrace_run (j : Nat) : ∀ l : MeCab.Lattice,
    (l.state = MeCab.LatState.parsed ∨
      l.state = MeCab.LatState.enumerating) →
    l.cursor + j < l.analyses.length →
    (nextTrace j l).1 = List.replicate j true ∧
    (nextTrace j l).2.cursor = l.cursor + j ∧
    (nextTrace j l).2.analyses = l.analyses ∧
    ((nextTrace j l).2.state = MeCab.LatState.parsed ∨
      (nextTrace j l).2.state = MeCab.LatState.enumerating) := by
  induction j with
  | zero =>
    intro l hst hcur
    exact ⟨rfl, rfl, rfl, hst⟩
  | succ n ih =>
    intro l hst hcur
    have h1 : l.cursor + 1 < l.analyses.length := by omega
    have hstep := next_lattice_step l hst h1
    have hrec := ih
      { l with
          cursor := l.cursor + 1
          state := MeCab.LatState.enumerating
          result := (l.analyses.getD (l.cursor + 1) ⟨[], 0⟩).surface }
      (Or.inr rfl) (by simp; omega)
    obtain ⟨htr, hc, han, hstf⟩ := hrec
    have hexp : nextTrace (n + 1) l =
        ((next_lattice l).1 :: (nextTrace n (next_lattice l).2).1,
          (nextTrace n (next_lattice l).2).2) := rfl
    rw [hexp, hstep]
    refine ⟨?_, ?_, ?_, ?_⟩
    · simp only []
      rw [List.replicate_succ]
      exact congrArg (true :: ·) htr
    · simp only []
      rw [hc]
      simp
      omega
    · simp only []
      rw [han]
    · simpa using hstf

/-- Claim C1: for every tagger and lattice whose sentence has k ≥ 2
admissible analyses, after a successful parse repeated next_lattice calls
return true exactly k - 1 times, the ranked analyses they step through are
in non-decreasing cost order, and the k-th call returns false while leaving
the lattice (node graph and state) unchanged. -/
theorem c1_nbest_enumeration (t : MeCab.Tagger) (l : MeCab.Lattice)
    (hk : 2 ≤ (t.model.analysesOf l.sentence).length)
    (hp : (parse t l).1 = true) :
    2 ≤ (parse t l).2.2.analyses.length ∧
    (nextTrace ((parse t l).2.2.analyses.length - 1) (parse t l).2.2).1 =
      List.replicate ((parse t l).2.2.analyses.length - 1) true ∧
    next_lattice
        (nextTrace ((parse t l).2.2.analyses.length - 1) (parse t l).2.2).2 =
      (false,
        (nextTrace ((parse t l).2.2.analyses.length - 1) (parse t l).2.2).2) ∧
    MeCab.costSorted (parse t l).2.2.analyses = true := by
  obtain ⟨han, hcur, hstate⟩ := parse_success_shape t l hp
  have hlen : (parse t l).2.2.analyses.length =
      (t.model.analysesOf l.sentence).length := by
    rw [han, MeCab.length_sortByCost]
  have hk2 : 2 ≤ (parse t l).2.2.analyses.length := by omega
  have hrun := nextTrace_run ((parse t l).2.2.analyses.length - 1)
    (parse t l).2.2 (Or.inl hstate) (by rw [hcur]; omega)
  obtain ⟨htr, hc, hanal, hstf⟩ := hrun
  refine ⟨hk2, htr, ?_, ?_⟩
  · apply next_lattice_stop
    rw [hanal, hc, hcur]
    omega
  · rw [han]
    exact MeCab.costSorted_sortByCost _

/-- A concrete two-analysis engine model used to witness the N-best claim:
the sentence of bytes 97 98 admits the analyses of cost 5 and cost 7. -/
def modelW : MeCab.Model :=
  { costTable := fun _ _ => 0
    analysesOf := fun s =>
      if s = [97, 98] then [⟨[97, 98], 5⟩, ⟨[97, 32, 98], 7⟩] else [] }

/-- A concrete tagger bound to the witness model. -/
def taggerW : MeCab.Tagger := { model := modelW, whatMsg := "" }

/-- A concrete ready lattice holding the two-analysis witness sentence. -/
def latticeW : MeCab.Lattice :=
  { sentence := [97, 98]
    state := .ready
    analyses := []
    cursor := 0
    result := []
    requestType := 1
    boundaryConstraints := []
    featureConstraints := []
    z := 0
    theta := 0
    whatMsg := "" }

/-- Witness for C1 at the concrete two-analysis sentence. -/
theorem c1_nbest_enumeration_witness :
    2 ≤ (parse taggerW latticeW).2.2.analyses.length ∧
    (nextTrace ((parse taggerW latticeW).2.2.analyses.length - 1)
        (parse taggerW latticeW).2.2).1 =
      List.replicate
        ((parse taggerW latticeW).2.2.analyses.length - 1) true ∧
    next_lattice
        (nextTrace ((parse taggerW latticeW).2.2.analyses.length - 1)
          (parse taggerW latticeW).2.2).2 =
      (false,
        (nextTrace ((parse taggerW latticeW).2.2.analyses.length - 1)
          (parse taggerW latticeW).2.2).2) ∧
    MeCab.costSorted (parse taggerW latticeW).2.2.analyses = true :=
  c1_nbest_enumeration taggerW latticeW (by decide) (by decide)

/-- Claim C2: when dictionary loading fails, new_model_argv and
new_model_single return a null handle, and get_global_error after the
failing call returns a non-empty string describing the failure. -/
theorem c2_model_failure (ld : MeCab.DictLoader) (argv : List String)
    (arg : String) (g g' : MeCab.GlobalState) (e e' : String)
    (ha : ld.load argv = Except.error e) (hna : e ≠ "")
    (hs : ld.loadSingle arg = Except.error e') (hns : e' ≠ "") :
    (new_model_argv ld argv g).1 = none ∧
    (get_global_error (new_model_argv ld argv g).2).1 ≠ "" ∧
    (new_model_single ld arg g').1 = none ∧
    (get_global_error (new_model_single ld arg g').2).1 ≠ "" := by
  refine ⟨?_, ?_, ?_, ?_⟩ <;>
    simp [new_model_argv, new_model_single, MeCab.createModel,
      MeCab.createModelSingle, get_global_error, MeCab.getLastError, ha, hs,
      hna, hns]

/-- A dictionary loader that fails on every option set, used to witness the
construction-failure claim. -/
def loaderW : MeCab.DictLoader :=
  { load := fun _ => Except.error "no such dictionary"
    loadSingle := fun _ => Except.error "invalid dicdir option" }

/-- Witness for C2 at a concrete failing loader and option strings. -/
theorem c2_model_failure_witness :
    (new_model_argv loaderW ["mecab", "-d", "missing"] ⟨""⟩).1 = none ∧
    (get_global_error
        (new_model_argv loaderW ["mecab", "-d", "missing"] ⟨""⟩).2).1 ≠ "" ∧
    (new_model_single loaderW "-d missing" ⟨""⟩).1 = none ∧
    (get_global_error
        (new_model_single loaderW "-d missing" ⟨""⟩).2).1 ≠ "" :=
  c2_model_failure loaderW ["mecab", "-d", "missing"] "-d missing" ⟨""⟩ ⟨""⟩
    "no such dictionary" "invalid dicdir option" rfl (by decide) rfl
    (by decide)

/-- Claim C3: set_sentence with a byte string and its length followed by
lattice_sentence returns exactly those bytes, and lattice_sentence_size
returns their byte length. -/
theorem c3_sentence_roundtrip (l : MeCab.Lattice) (s : Bytes) :
    lattice_sentence (set_sentence l s s.length) = s ∧
    lattice_sentence_size (set_sentence l s s.length) = s.length := by
  constructor <;>
    simp [lattice_sentence, lattice_sentence_size, set_sentence,
      MeCab.Lattice.set_sentence, MeCab.Lattice.sentenceBytes,
      MeCab.Lattice.size]

/-- Claim C4: after set_sentence with the empty string of length 0,
is_available returns false and a subsequent parse by any tagger returns
false. -/
theorem c4_empty_sentence (t : MeCab.Tagger) (l : MeCab.Lattice) :
    is_available (set_sentence l [] 0) = false ∧
    (parse t (set_sentence l [] 0)).1 = false := by
  constructor <;>
    simp [is_available, set_sentence, MeCab.Lattice.set_sentence,
      MeCab.Lattice.is_available, parse, MeCab.Tagger.parse]

/-- Claim C5: nbest_string produces its string without mutating the
enumeration cursor used by next_lattice: it returns the lattice unchanged,
and any sequence of subsequent next_lattice calls returns exactly what it
would have returned had nbest_string not been called. -/
theorem c5_nbest_string_pure (l : MeCab.Lattice) (n j : Nat) :
    (nbest_string l n).2 = l ∧
    nextTrace j (nbest_string l n).2 = nextTrace j l :=
  ⟨rfl, rfl⟩

/-- Claim C6: clear_lattice is idempotent: a second clear leaves every
observable field (sentence, node graph, cursor, result, constraints,
request flags, normalization fields, error string) unchanged, and after
clear the lattice is in the Empty state. -/
theorem c6_clear_idempotent (l : MeCab.Lattice) :
    clear_lattice (clear_lattice l) = clear_lattice l ∧
    (clear_lattice l).state = MeCab.LatState.empty :=
  ⟨rfl, rfl⟩

/-- Claim C7: the caller-buffer string variants never write beyond the
buffer's capacity — the buffer keeps its exact extent — and each signals
truncation by returning null exactly when its content plus the terminator
does not fit. -/
theorem c7_buffer_bounded (l : MeCab.Lattice) (n : Nat) (nd : MeCab.Node)
    (buf : Bytes) :
    (lattice_to_string_alloc l buf).2.length = buf.length ∧
    (nbest_string_alloc l n buf).2.length = buf.length ∧
    (node_string_alloc l nd buf).2.length = buf.length ∧
    ((lattice_to_string_alloc l buf).1 = none ↔
      buf.length < l.result.length + 1) ∧
    ((nbest_string_alloc l n buf).1 = none ↔
      buf.length < (MeCab.nbestFormat n l.analyses).length + 1) ∧
    ((node_string_alloc l nd buf).1 = none ↔
      buf.length < nd.surface.length + 1) := by
  refine ⟨?_, ?_, ?_, ?_, ?_, ?_⟩ <;>
    simp [lattice_to_string_alloc, nbest_string_alloc, node_string_alloc,
      MeCab.Lattice.toStringBuf, MeCab.Lattice.enumNBestAsStringBuf,
      MeCab.Lattice.nodeToStringBuf, MeCab.writeBuffer_length,
      MeCab.writeBuffer_none_iff]

/-- Claim C8: transition_cost is a pure query of the connection-cost table:
it returns the model unchanged, and a second call with the same arguments on
the returned model gives the same integer. -/
theorem c8_transition_cost_pure (m : MeCab.Model) (rattr lattr : Nat) :
    (transition_cost m rattr lattr).2 = m ∧
    (transition_cost (transition_cost m rattr lattr).2 rattr lattr).1 =
      (transition_cost m rattr lattr).1 :=
  ⟨rfl, rfl⟩

/-- Claim C9: model_version and tagger_version take no Model or Tagger
handle, each returns the same non-empty constant string in any two global
states, and neither changes the global state. -/
theorem c9_version_constant (g g' : MeCab.GlobalState) :
    (model_version g).1 = (model_version g').1 ∧
    (tagger_version g).1 = (tagger_version g').1 ∧
    (model_version g).1 ≠ "" ∧
    (tagger_version g).1 ≠ "" ∧
    (model_version g).2 = g ∧
    (tagger_version g).2 = g := by
  refine ⟨rfl, rfl, ?_, ?_, rfl, rfl⟩ <;>
    simp [model_version, tagger_version, MeCab.Model.versionCall,
      MeCab.Tagger.versionCall, MeCab.versionString]

/-- Claim C10: releasing a null handle is safe: delete_model, delete_tagger
and delete_lattice applied to the null handle leave every heap unchanged. -/
theorem c10_delete_null_noop (hm : List (Nat × MeCab.Model))
    (ht : List (Nat × MeCab.Tagger)) (hl : List (Nat × MeCab.Lattice)) :
    delete_model 0 hm = hm ∧ delete_tagger 0 ht = ht ∧
    delete_lattice 0 hl = hl := by
  refine ⟨?_, ?_, ?_⟩ <;>
    simp [delete_model, delete_tagger, delete_lattice, deleteHandle]
